import Mathlib

set_option maxHeartbeats 1000000

/-! Shallow embedding of the healthcare OCR processor's enrichment core
(azure_ocr_processor.py): models of the Python string primitives the code
relies on, the pattern-extraction engine, the layout-result adapter, the
document assembler and the batch orchestrator's aggregation, together with
theorems checking the specification's claims against these definitions. -/

/-- ASCII model of Python str.lower, applied characterwise. -/
def pyLower (s : List Char) : List Char := s.map Char.toLower

/-- Does the character list start with the given pattern. -/
def listStartsWith : List Char → List Char → Bool
  | _, [] => true
  | [], _ :: _ => false
  | a :: as, b :: bs => a == b && listStartsWith as bs

/-- Python substring test (the `in` operator): needle occurs in haystack. -/
def listContainsSub : List Char → List Char → Bool
  | [], need => need.isEmpty
  | a :: rest, need => listStartsWith (a :: rest) need || listContainsSub rest need

/-- Python str.find on character lists: index of the first occurrence, if any. -/
def listFindSub : List Char → List Char → Option Nat
  | [], need => if need.isEmpty then some 0 else none
  | a :: rest, need =>
    if listStartsWith (a :: rest) need then some 0
    else (listFindSub rest need).map (fun i => i + 1)

/-- ASCII model of Python str.title: an alphabetic character that follows a
non-alphabetic boundary is upper-cased, every other alphabetic character is
lower-cased, non-alphabetic characters pass through. -/
def pyTitleAux : List Char → Bool → List Char
  | [], _ => []
  | c :: cs, prevAlpha =>
    (if c.isAlpha then (if prevAlpha then c.toLower else c.toUpper) else c) ::
      pyTitleAux cs c.isAlpha

/-- Python str.title on a character list. -/
def pyTitle (s : List Char) : List Char := pyTitleAux s false

/-- ASCII whitespace as recognised by Python str.strip. -/
def pyIsSpace (c : Char) : Bool :=
  c == ' ' || c == '\t' || c == '\n' || c == '\r' || c == Char.ofNat 11 || c == Char.ofNat 12

/-- Python str.strip: drop leading and trailing whitespace. -/
def pyStrip (s : List Char) : List Char :=
  ((s.dropWhile pyIsSpace).reverse.dropWhile pyIsSpace).reverse

/-- Case-insensitive occurrence test used throughout the extraction engine of
the source: the (already lower-case) pattern literal occurs in the lower-cased
text, exactly the source's `pattern in text_lower`. -/
def occursIn (text pattern : String) : Bool :=
  listContainsSub (pyLower text.data) pattern.data

/-- The fixed payer keyword list of `_extract_payer_name`, in source order. -/
def payer_keywords : List String :=
  ["united healthcare", "unitedhealthcare", "uhc",
   "anthem", "elevance",
   "aetna", "cvs health",
   "kaiser permanente",
   "cigna", "humana",
   "blue cross blue shield", "bcbs",
   "centene", "molina healthcare"]

/-- Embedding of `_extract_payer_name`: the title-cased first keyword (in list
order) occurring in the lower-cased text, or none. -/
def extract_payer_name (text : String) : Option String :=
  (payer_keywords.find? (fun payer => occursIn text payer)).map
    (fun payer => String.mk (pyTitle payer.data))

/-- Embedding of `_classify_document_type`: the first matching keyword rule of
the fixed if/elif chain, else the general default. -/
def classify_document_type (text : String) : String :=
  if occursIn text "prior authorization" || occursIn text "pre-authorization" then
    "Prior Authorization Guidelines"
  else if occursIn text "claim" && occursIn text "timely filing" then
    "Claims & Timely Filing"
  else if occursIn text "appeal" then
    "Appeals Process"
  else if occursIn text "provider manual" then
    "Provider Manual"
  else if occursIn text "fee schedule" || occursIn text "reimbursement" then
    "Fee Schedule"
  else if occursIn text "credentialing" then
    "Credentialing Requirements"
  else
    "General Policy Document"

/-- Embedding of `_extract_surrounding_text` with its default of 200 context
characters: the original-case slice around the first case-insensitive
occurrence, clipped to the text bounds and stripped; empty when absent. -/
def extract_surrounding_text (text pattern : String) : String :=
  match listFindSub (pyLower text.data) (pyLower pattern.data) with
  | none => ""
  | some idx =>
    String.mk (pyStrip ((text.data.drop (idx - 200)).take
      (min text.data.length (idx + pattern.data.length + 200) - (idx - 200))))

/-- One detected healthcare rule, mirroring the dict appended in
`_extract_healthcare_rules`. -/
structure DetectedRule where
  type : String
  pattern_matched : String
  rule_text : String
deriving DecidableEq, Repr

/-- The fixed category-to-trigger-phrase table of `_extract_healthcare_rules`,
in source (dict insertion) order. -/
def rule_patterns : List (String × List String) :=
  [("prior_authorization",
      ["prior authorization required", "pre-auth required", "pa required"]),
   ("timely_filing",
      ["timely filing", "filing deadline", "claim submission deadline"]),
   ("appeal_deadline",
      ["appeal within", "appeal deadline", "days to appeal"]),
   ("documentation",
      ["documentation required", "medical records required"]),
   ("notification",
      ["notification required", "must notify", "advance notice"])]

/-- Embedding of `_extract_healthcare_rules`: the nested loop over the table;
each phrase occurring in the lower-cased text contributes one DetectedRule. -/
def extract_healthcare_rules (text : String) : List DetectedRule :=
  rule_patterns.flatMap (fun cp =>
    (cp.2.filter (fun pat => occursIn text pat)).map (fun pat =>
      { type := cp.1, pattern_matched := pat,
        rule_text := extract_surrounding_text text pat }))

/-- Formulation following the specification's words for rule mining: flatten
the category-to-phrase table into (category, phrase) pairs, keep the pairs
whose phrase occurs in the lower-cased text, and emit one DetectedRule per
kept pair. Used only to compare with the source-derived definition. -/
def rules_spec (text : String) : List DetectedRule :=
  ((rule_patterns.flatMap (fun cp => cp.2.map (fun pat => (cp.1, pat)))).filter
      (fun rp => occursIn text rp.2)).map
    (fun rp => { type := rp.1, pattern_matched := rp.2,
                 rule_text := extract_surrounding_text text rp.2 })

/-- One raw OCR line as accessed by the source (content required; confidence
and polygon looked up defensively with getattr/hasattr). -/
structure RawLine where
  content : String
  confidence : Option Int
  polygon : Option (List (Int × Int))
deriving DecidableEq

/-- One raw OCR page as accessed by the source; `lines` may be absent. -/
structure RawPage where
  page_number : Nat
  width : Int
  height : Int
  unit : String
  lines : Option (List RawLine)
deriving DecidableEq

/-- A raw bounding region carrying a page number reference. -/
structure RawRegion where
  page_number : Nat
deriving DecidableEq

/-- One raw OCR paragraph; role and bounding_regions are optional. -/
structure RawParagraph where
  content : String
  role : Option String
  bounding_regions : Option (List RawRegion)
deriving DecidableEq

/-- One raw table cell; kind and the two spans are optional. -/
structure RawCell where
  row_index : Nat
  column_index : Nat
  content : String
  kind : Option String
  row_span : Option Nat
  column_span : Option Nat
deriving DecidableEq

/-- One raw table. -/
structure RawTable where
  row_count : Nat
  column_count : Nat
  cells : List RawCell
deriving DecidableEq

/-- The raw layout-analysis result handed to `_convert_to_healthcare_json`;
pages, paragraphs and tables may each be absent. -/
structure RawLayoutResult where
  content : String
  pages : Option (List RawPage)
  paragraphs : Option (List RawParagraph)
  tables : Option (List RawTable)
deriving DecidableEq

/-- Python truthiness of an optional list: iterating over an absent or empty
list visits no elements. -/
def optListElems {α : Type} : Option (List α) → List α
  | none => []
  | some xs => xs

/-- One assembled line entry of the output JSON. -/
structure LineData where
  text : String
  confidence : Option Int
  bounding_box : Option (List (Int × Int))
deriving DecidableEq

/-- Page dimensions of the output JSON. -/
structure PageDims where
  width : Int
  height : Int
  unit : String
deriving DecidableEq

/-- One assembled page entry of the output JSON. -/
structure PageData where
  page_number : Nat
  dimensions : PageDims
  lines : List LineData
deriving DecidableEq

/-- One assembled paragraph entry; page_number is present only when the raw
paragraph had a non-empty bounding_regions sequence. -/
structure ParaData where
  content : String
  role : Option String
  page_number : Option Nat
deriving DecidableEq

/-- One assembled table cell entry. -/
structure CellData where
  row : Nat
  column : Nat
  content : String
  kind : Option String
  row_span : Nat
  column_span : Nat
deriving DecidableEq

/-- One assembled table entry. -/
structure TableData where
  table_id : Nat
  row_count : Nat
  column_count : Nat
  cells : List CellData
deriving DecidableEq

/-- The healthcare_metadata object of the output JSON. -/
structure HealthcareMetadata where
  payer_name : Option String
  document_type : String
  detected_rules : List DetectedRule
deriving DecidableEq

/-- The final assembled output document of `_convert_to_healthcare_json`. -/
structure ExtractionDocument where
  source_blob : String
  extraction_date : String
  page_count : Nat
  full_text : String
  pages : List PageData
  paragraphs : List ParaData
  tables : List TableData
  healthcare_metadata : HealthcareMetadata
  healthcare_rules_count : Nat
deriving DecidableEq

/-- Per-line adaptation inside the page loop of `_convert_to_healthcare_json`:
confidence via getattr(line, 'confidence', None) and bounding box via the
hasattr(line, 'polygon') guard. -/
def adaptLine (line : RawLine) : LineData :=
  { text := line.content, confidence := line.confidence,
    bounding_box := line.polygon }

/-- Per-page adaptation of `_convert_to_healthcare_json`. -/
def adaptPage (page : RawPage) : PageData :=
  { page_number := page.page_number,
    dimensions := { width := page.width, height := page.height, unit := page.unit },
    lines := (optListElems page.lines).map adaptLine }

/-- Per-paragraph adaptation: role via getattr default None; page_number set
only when bounding_regions exists and is non-empty. -/
def adaptParagraph (para : RawParagraph) : ParaData :=
  { content := para.content, role := para.role,
    page_number :=
      match para.bounding_regions with
      | some (r :: _) => some r.page_number
      | _ => none }

/-- Per-cell adaptation: kind defaults to an absent marker, the spans to 1. -/
def adaptCell (cell : RawCell) : CellData :=
  { row := cell.row_index, column := cell.column_index, content := cell.content,
    kind := cell.kind, row_span := cell.row_span.getD 1,
    column_span := cell.column_span.getD 1 }

/-- Per-table adaptation: table_id is the 1-based enumeration index. -/
def adaptTable (idx : Nat) (table : RawTable) : TableData :=
  { table_id := idx + 1, row_count := table.row_count,
    column_count := table.column_count, cells := table.cells.map adaptCell }

/-- Embedding of `_convert_to_healthcare_json`: assembles the output document
from the raw layout result; the rules count is computed from the detected
rules at the end, exactly as the source overwrites its initial 0. -/
def convert_to_healthcare_json (result : RawLayoutResult) (blob_name now : String) :
    ExtractionDocument :=
  { source_blob := blob_name
    extraction_date := now
    page_count :=
      match result.pages with
      | some ps => if ps.isEmpty then 0 else ps.length
      | none => 0
    full_text := result.content
    pages := (optListElems result.pages).map adaptPage
    paragraphs := (optListElems result.paragraphs).map adaptParagraph
    tables := (optListElems result.tables).enum.map (fun it => adaptTable it.1 it.2)
    healthcare_metadata :=
      { payer_name := extract_payer_name result.content
        document_type := classify_document_type result.content
        detected_rules := extract_healthcare_rules result.content }
    healthcare_rules_count := (extract_healthcare_rules result.content).length }

/-- One per-document outcome dict appended by `process_all_pdfs_from_blob`;
success entries carry pages, rules_extracted and json_blob, failure entries an
error description. -/
structure BatchResult where
  blob_name : String
  status : String
  pages : Option Nat
  rules_extracted : Option Nat
  json_blob : Option String
  error : Option String
  timestamp : String
deriving DecidableEq

/-- The batch summary dict built by `_upload_batch_summary`. -/
structure BatchSummary where
  processing_date : String
  total_files : Nat
  successful : Nat
  failed : Nat
  total_pages : Nat
  total_rules : Nat
  results : List BatchResult
deriving DecidableEq

/-- Embedding of `_upload_batch_summary`'s summary construction: every total
is a reduction over the results list. -/
def upload_batch_summary (results : List BatchResult) (now : String) : BatchSummary :=
  { processing_date := now
    total_files := results.length
    successful := (results.filter (fun r => r.status == "success")).length
    failed := (results.filter (fun r => r.status == "failed")).length
    total_pages :=
      ((results.filter (fun r => r.status == "success")).map
        (fun r => r.pages.getD 0)).sum
    total_rules :=
      ((results.filter (fun r => r.status == "success")).map
        (fun r => r.rules_extracted.getD 0)).sum
    results := results }

/-- Models Path(name).stem from the source's output naming: the name with its
final extension removed (for ordinary names such as "policy.pdf"). -/
def pathStem (s : String) : String :=
  if s.data.contains '.' then
    String.mk (((s.data.reverse.dropWhile (fun c => c != '.')).drop 1).reverse)
  else s

/-- The loop body of `process_all_pdfs_from_blob` for one document, with the
externally-determined pipeline outcome made explicit: the try branch records a
success entry from the produced document, the except branch records a failure
entry carrying the exception description. -/
def process_one (now : String) (be : String × Except String ExtractionDocument) :
    BatchResult :=
  match be.2 with
  | Except.ok doc =>
      { blob_name := be.1, status := "success", pages := some doc.page_count,
        rules_extracted := some doc.healthcare_rules_count,
        json_blob := some (pathStem be.1 ++ "_ocr.json"), error := none,
        timestamp := now }
  | Except.error e =>
      { blob_name := be.1, status := "failed", pages := none,
        rules_extracted := none, json_blob := none, error := some e,
        timestamp := now }

/-- The per-document loop of `process_all_pdfs_from_blob`: every discovered
document is attempted and yields exactly one BatchResult. -/
def process_all_pdfs (blobs : List (String × Except String ExtractionDocument))
    (now : String) : List BatchResult :=
  blobs.map (process_one now)

/-- Error description of a pipeline outcome, if it failed. -/
def errDesc : Except String ExtractionDocument → Option String
  | Except.ok _ => none
  | Except.error e => some e

/-- Did the pipeline outcome succeed. -/
def isOkOutcome : Except String ExtractionDocument → Bool
  | Except.ok _ => true
  | Except.error _ => false

/-- Observable orchestration events of the batch loop. -/
inductive BatchEvent where
  | processDoc : String → BatchEvent
  | sleep : Nat → BatchEvent
deriving DecidableEq

/-- Is the event a pacing sleep. -/
def isSleepEvent : BatchEvent → Bool
  | BatchEvent.sleep _ => true
  | _ => false

/-- Trace of the batch loop in `process_all_pdfs_from_blob`: each document is
processed, and after every document except the last the loop executes
time.sleep(3) — the delay is the literal 3 in the source and is read from no
configuration value. -/
def batch_trace : List String → List BatchEvent
  | [] => []
  | [b] => [BatchEvent.processDoc b]
  | b :: rest => BatchEvent.processDoc b :: BatchEvent.sleep 3 :: batch_trace rest

/-- A raw result with every optional part absent, for concrete checks. -/
def rawEmpty : RawLayoutResult :=
  { content := "", pages := none, paragraphs := none, tables := none }

/-- A raw line with absent confidence and polygon. -/
def lineAbsent : RawLine := { content := "x", confidence := none, polygon := none }

/-- A raw paragraph with absent role and bounding regions. -/
def paraAbsent : RawParagraph :=
  { content := "x", role := none, bounding_regions := none }

/-- A raw cell with absent kind and spans. -/
def cellAbsent : RawCell :=
  { row_index := 0, column_index := 0, content := "", kind := none,
    row_span := none, column_span := none }

/-- A small successful output document, for concrete batch checks. -/
def demoDoc (pc : Nat) : ExtractionDocument :=
  { source_blob := "a.pdf", extraction_date := "t", page_count := pc,
    full_text := "", pages := [], paragraphs := [], tables := [],
    healthcare_metadata :=
      { payer_name := none, document_type := "General Policy Document",
        detected_rules := [] },
    healthcare_rules_count := 0 }

/-- A concrete three-document batch whose second document fails. -/
def demoBlobs : List (String × Except String ExtractionDocument) :=
  [("a.pdf", Except.ok (demoDoc 2)),
   ("b.pdf", Except.error "OCR analysis failed"),
   ("c.pdf", Except.ok (demoDoc 3))]

/-- C10: on the empty text the three extraction functions return their neutral
results: no payer, the default document type, and no detected rules (being
total Lean functions, none of them can raise). -/
theorem c10_empty_text_neutral :
    extract_payer_name "" = none
  ∧ classify_document_type "" = "General Policy Document"
  ∧ extract_healthcare_rules "" = [] := by
  refine ⟨by decide, by decide, by decide⟩

/-- C5: in every assembled ExtractionDocument the healthcare_rules_count field
equals the length of healthcare_metadata.detected_rules; the count is derived
from the rules list by the assembler (it is not an input), and the zero-rule
document satisfies the invariant with count 0. -/
theorem c5_rules_count_invariant (result : RawLayoutResult) (blob_name now : String) :
    (convert_to_healthcare_json result blob_name now).healthcare_rules_count
      = (convert_to_healthcare_json result blob_name
          now).healthcare_metadata.detected_rules.length
  ∧ (convert_to_healthcare_json rawEmpty "b.pdf" "t").healthcare_rules_count = 0 :=
  ⟨rfl, by decide⟩

/-- Counting helper: any predicate true on the pacing sleep and false on
document events counts exactly length - 1 events in the batch trace. -/
theorem batch_trace_countP (p : BatchEvent → Bool)
    (hp : ∀ b, p (BatchEvent.processDoc b) = false)
    (hs : p (BatchEvent.sleep 3) = true) :
    ∀ blobs : List String, (batch_trace blobs).countP p = blobs.length - 1 := by
  intro blobs
  induction blobs with
  | nil => simp [batch_trace]
  | cons b rest ih =>
    cases rest with
    | nil => simp [batch_trace, List.countP_cons, hp]
    | cons c rest2 =>
      have h1 : batch_trace (b :: c :: rest2)
          = BatchEvent.processDoc b :: BatchEvent.sleep 3 :: batch_trace (c :: rest2) := rfl
      rw [h1]
      simp [List.countP_cons, hp, hs] at ih ⊢
      omega

/-- The batch trace of a non-empty document list is non-empty. -/
theorem batch_trace_ne_nil (b : String) (rest : List String) :
    batch_trace (b :: rest) ≠ [] := by
  cases rest <;> simp [batch_trace]

/-- getLast? of a cons with non-empty tail looks into the tail. -/
theorem getLast?_cons_ne_nil {α : Type} (a : α) {l : List α} (h : l ≠ []) :
    (a :: l).getLast? = l.getLast? := by
  cases l with
  | nil => exact absurd rfl h
  | cons b t => rfl

/-- The last trace event is always the processing of the last document. -/
theorem batch_trace_getLast :
    ∀ blobs : List String,
      (batch_trace blobs).getLast? = blobs.getLast?.map BatchEvent.processDoc := by
  intro blobs
  induction blobs with
  | nil => simp [batch_trace]
  | cons b rest ih =>
    cases rest with
    | nil => simp [batch_trace]
    | cons c rest2 =>
      have h1 : batch_trace (b :: c :: rest2)
          = BatchEvent.processDoc b :: BatchEvent.sleep 3 :: batch_trace (c :: rest2) := rfl
      rw [h1, getLast?_cons_ne_nil _ (by simp),
          getLast?_cons_ne_nil _ (batch_trace_ne_nil c rest2), ih,
          getLast?_cons_ne_nil b (by simp)]

/-- C9: pacing events of the batch loop. The loop sleeps exactly once between
consecutive documents (length - 1 sleeps, every one of them the hardcoded
3-second sleep, and the trace always ends with the last document's processing,
never a sleep), and a single-document run incurs no pacing delay. The delay
value 3 is a literal in the source, read from no configuration. -/
theorem c9_pacing_hardcoded :
    (∀ blobs : List String,
       (batch_trace blobs).countP isSleepEvent = blobs.length - 1)
  ∧ (∀ blobs : List String,
       (batch_trace blobs).countP (fun e => e == BatchEvent.sleep 3)
         = blobs.length - 1)
  ∧ (∀ blobs : List String,
       (batch_trace blobs).getLast? = blobs.getLast?.map BatchEvent.processDoc)
  ∧ batch_trace ["a.pdf", "b.pdf"]
      = [BatchEvent.processDoc "a.pdf", BatchEvent.sleep 3,
         BatchEvent.processDoc "b.pdf"]
  ∧ batch_trace ["only.pdf"] = [BatchEvent.processDoc "only.pdf"] := by
  refine ⟨batch_trace_countP _ (fun b => rfl) rfl,
          batch_trace_countP _ (fun b => rfl) rfl,
          batch_trace_getLast, rfl, rfl⟩

/-- List.find? returns the marked element of a split whenever the predicate
holds there and fails on everything before it. -/
theorem find?_append_first {α : Type} (p : α → Bool) (l1 l2 : List α) (b : α)
    (hb : p b = true) (h1 : ∀ a ∈ l1, p a = false) :
    (l1 ++ b :: l2).find? p = some b := by
  induction l1 with
  | nil => simp [List.find?, hb]
  | cons a t ih =>
    have ha : p a = false := h1 a (List.mem_cons_self a t)
    simp only [List.cons_append, List.find?, ha]
    exact ih (fun x hx => h1 x (List.mem_cons_of_mem a hx))

/-- C1: payer detection returns the title-cased form of the first keyword, in
the fixed list order, that occurs in the lower-cased text, and none when no
keyword occurs; the concrete UHC/Aetna text yields "Uhc". -/
theorem c1_payer_first_match (text : String) :
    (extract_payer_name text = none ↔ ∀ p ∈ payer_keywords, occursIn text p = false)
  ∧ (∀ q l1 l2, payer_keywords = l1 ++ q :: l2 → occursIn text q = true →
       (∀ p ∈ l1, occursIn text p = false) →
       extract_payer_name text = some (String.mk (pyTitle q.data)))
  ∧ extract_payer_name "Member is covered under UHC and also Aetna network"
      = some "Uhc" := by
  refine ⟨?_, ?_, by decide⟩
  · simp [extract_payer_name, Option.map_eq_none', List.find?_eq_none]
  · intro q l1 l2 heq hq h1
    unfold extract_payer_name
    rw [heq, find?_append_first _ l1 l2 q hq h1]
    rfl

/-- Witness for C1: the second part applied to the keyword "uhc" with its
concrete prefix of the payer list, at the concrete text of the claim. -/
theorem c1_payer_first_match_witness :
    extract_payer_name "Member is covered under UHC and also Aetna network"
      = some "Uhc" := by
  have h := (c1_payer_first_match
      "Member is covered under UHC and also Aetna network").2.1 "uhc"
      ["united healthcare", "unitedhealthcare"]
      ["anthem", "elevance", "aetna", "cvs health", "kaiser permanente", "cigna",
       "humana", "blue cross blue shield", "bcbs", "centene", "molina healthcare"]
      rfl (by decide) (by decide)
  exact h.trans (by decide)

/-- C2: document-type classification evaluates the fixed keyword rules in
priority order with case-insensitive substring tests, returns the first match,
and falls through to the general default when no rule matches. -/
theorem c2_classification_priority (text : String) :
    ((occursIn text "prior authorization" || occursIn text "pre-authorization") = true →
       classify_document_type text = "Prior Authorization Guidelines")
  ∧ ((occursIn text "prior authorization" || occursIn text "pre-authorization") = false →
     (occursIn text "claim" && occursIn text "timely filing") = true →
       classify_document_type text = "Claims & Timely Filing")
  ∧ ((occursIn text "prior authorization" || occursIn text "pre-authorization") = false →
     (occursIn text "claim" && occursIn text "timely filing") = false →
     occursIn text "appeal" = true →
       classify_document_type text = "Appeals Process")
  ∧ ((occursIn text "prior authorization" || occursIn text "pre-authorization") = false →
     (occursIn text "claim" && occursIn text "timely filing") = false →
     occursIn text "appeal" = false →
     occursIn text "provider manual" = true →
       classify_document_type text = "Provider Manual")
  ∧ ((occursIn text "prior authorization" || occursIn text "pre-authorization") = false →
     (occursIn text "claim" && occursIn text "timely filing") = false →
     occursIn text "appeal" = false →
     occursIn text "provider manual" = false →
     (occursIn text "fee schedule" || occursIn text "reimbursement") = true →
       classify_document_type text = "Fee Schedule")
  ∧ ((occursIn text "prior authorization" || occursIn text "pre-authorization") = false →
     (occursIn text "claim" && occursIn text "timely filing") = false →
     occursIn text "appeal" = false →
     occursIn text "provider manual" = false →
     (occursIn text "fee schedule" || occursIn text "reimbursement") = false →
     occursIn text "credentialing" = true →
       classify_document_type text = "Credentialing Requirements")
  ∧ ((occursIn text "prior authorization" || occursIn text "pre-authorization") = false →
     (occursIn text "claim" && occursIn text "timely filing") = false →
     occursIn text "appeal" = false →
     occursIn text "provider manual" = false →
     (occursIn text "fee schedule" || occursIn text "reimbursement") = false →
     occursIn text "credentialing" = false →
       classify_document_type text = "General Policy Document") := by
  refine ⟨?_, ?_, ?_, ?_, ?_, ?_, ?_⟩ <;> intros <;> simp_all [classify_document_type]

/-- Witness for C2: a text containing both "appeal" and "fee schedule" but not
matched by the first two rules is classified into the appeals category. -/
theorem c2_classification_priority_witness :
    classify_document_type "Submit an appeal per the fee schedule"
      = "Appeals Process" :=
  (c2_classification_priority "Submit an appeal per the fee schedule").2.2.1
    (by decide) (by decide) (by decide)

/-- When the needle occurs nowhere, the find returns none. -/
theorem listFindSub_none_of_not_contains (hay need : List Char)
    (h : listContainsSub hay need = false) : listFindSub hay need = none := by
  induction hay with
  | nil =>
    simp [listContainsSub] at h
    simp [listFindSub, h]
  | cons a rest ih =>
    simp [listContainsSub] at h
    simp [listFindSub, h.1, ih h.2]

/-- The find returns exactly the first index at which the needle starts. -/
theorem listFindSub_eq_some (need : List Char) :
    ∀ (hay : List Char) (idx : Nat),
      listStartsWith (hay.drop idx) need = true →
      (∀ j, j < idx → listStartsWith (hay.drop j) need = false) →
      listFindSub hay need = some idx := by
  intro hay
  induction hay with
  | nil =>
    intro idx hs hj
    rw [List.drop_nil] at hs
    have hidx : idx = 0 := by
      rcases Nat.eq_zero_or_pos idx with h0 | h0
      · exact h0
      · have hcontra := hj 0 h0
        rw [List.drop_nil, hs] at hcontra
        exact absurd hcontra (by simp)
    subst hidx
    cases need with
    | nil => rfl
    | cons b bs => simp [listStartsWith] at hs
  | cons a rest ih =>
    intro idx hs hj
    cases idx with
    | zero =>
      simp only [List.drop] at hs
      simp [listFindSub, hs]
    | succ i =>
      have h0 : listStartsWith (a :: rest) need = false := by
        have hcontra := hj 0 (Nat.succ_pos i)
        simpa using hcontra
      have ihr : listFindSub rest need = some i := by
        apply ih i
        · simpa using hs
        · intro j hji
          have hjj := hj (j + 1) (Nat.succ_lt_succ hji)
          simpa using hjj
      simp [listFindSub, h0, ihr]

/-- C4: the context window around a phrase is the original-case slice from
(first case-insensitive occurrence index - 200) to (occurrence index + phrase
length + 200), with the start clipped to 0 and the end clipped to the text
length, stripped of surrounding whitespace; when the phrase does not occur in
the lower-cased text the window is the empty string. -/
theorem c4_context_window (text pattern : String) :
    (listContainsSub (pyLower text.data) (pyLower pattern.data) = false →
       extract_surrounding_text text pattern = "")
  ∧ (∀ idx : Nat,
       listStartsWith ((pyLower text.data).drop idx) (pyLower pattern.data) = true →
       (∀ j, j < idx →
         listStartsWith ((pyLower text.data).drop j) (pyLower pattern.data) = false) →
       ∃ start stop : Nat,
         (start : Int) = max 0 ((idx : Int) - 200)
       ∧ (stop : Int) = min (text.data.length : Int)
           ((idx : Int) + (pattern.data.length : Int) + 200)
       ∧ extract_surrounding_text text pattern
           = String.mk (pyStrip ((text.data.drop start).take (stop - start)))) := by
  constructor
  · intro h
    unfold extract_surrounding_text
    rw [listFindSub_none_of_not_contains _ _ h]
  · intro idx hs hj
    refine ⟨idx - 200, min text.data.length (idx + pattern.data.length + 200),
            ?_, ?_, ?_⟩
    · omega
    · omega
    · unfold extract_surrounding_text
      rw [listFindSub_eq_some _ _ idx hs hj]

/-- Witness for C4: for a phrase at index 0 the window start clips to 0 and
the window end clips to the text length; an absent phrase yields "". -/
theorem c4_context_window_witness :
    extract_surrounding_text "Timely filing applies" "zebra" = ""
  ∧ ∃ start stop : Nat,
      (start : Int) = max 0 ((0 : Int) - 200)
    ∧ (stop : Int) = min (("Timely filing applies".data.length : Int))
        ((0 : Int) + (("timely filing".data.length : Int)) + 200)
    ∧ extract_surrounding_text "Timely filing applies" "timely filing"
        = String.mk (pyStrip (("Timely filing applies".data.drop start).take
            (stop - start))) := by
  constructor
  · exact (c4_context_window "Timely filing applies" "zebra").1 (by decide)
  · have h := (c4_context_window "Timely filing applies" "timely filing").2 0
      (by decide) (fun j hj => absurd hj (Nat.not_lt_zero j))
    simpa using h

/-- Filtering a mapped list filters the preimages. -/
theorem filter_of_map {α β : Type} (f : β → α) (q : α → Bool) (l : List β) :
    (l.map f).filter q = (l.filter (fun b => q (f b))).map f := by
  induction l with
  | nil => rfl
  | cons a t ih =>
    cases h : q (f a) <;> simp [List.filter_cons, h, ih]

/-- Filtering distributes over flatMap. -/
theorem filter_of_flatMap {α β : Type} (f : β → List α) (q : α → Bool) (l : List β) :
    (l.flatMap f).filter q = l.flatMap (fun b => (f b).filter q) := by
  induction l with
  | nil => rfl
  | cons a t ih => simp [List.flatMap_cons, List.filter_append, ih]

/-- Mapping distributes over flatMap. -/
theorem map_of_flatMap {α β γ : Type} (f : β → List α) (g : α → γ) (l : List β) :
    (l.flatMap f).map g = l.flatMap (fun b => (f b).map g) := by
  induction l with
  | nil => rfl
  | cons a t ih => simp [List.flatMap_cons, ih]

/-- Pointwise-equal functions give equal flatMaps. -/
theorem flatMap_congr_mem {α β : Type} (l : List α) (f g : α → List β)
    (h : ∀ a ∈ l, f a = g a) : l.flatMap f = l.flatMap g := by
  induction l with
  | nil => rfl
  | cons a t ih =>
    simp [List.flatMap_cons, h a (List.mem_cons_self a t),
          ih (fun x hx => h x (List.mem_cons_of_mem a hx))]

/-- Pointwise equal lengths give equal flatMap lengths. -/
theorem length_flatMap_congr {α β γ : Type} (l : List α) (f : α → List β)
    (g : α → List γ) (h : ∀ a ∈ l, (f a).length = (g a).length) :
    (l.flatMap f).length = (l.flatMap g).length := by
  induction l with
  | nil => rfl
  | cons a t ih =>
    simp [List.flatMap_cons, h a (List.mem_cons_self a t),
          ih (fun x hx => h x (List.mem_cons_of_mem a hx))]

/-- C3: rule mining tests every phrase of every category and emits exactly one
DetectedRule per occurring phrase: it agrees with the specification's
pair-table formulation, its length is the number of occurring phrases, a text
matching no phrase yields no rules, and the concrete two-phrase text yields
exactly the two timely_filing rules. -/
theorem c3_rule_mining (text : String) :
    extract_healthcare_rules text = rules_spec text
  ∧ (extract_healthcare_rules text).length
      = ((rule_patterns.flatMap (fun cp => cp.2)).filter
          (fun pat => occursIn text pat)).length
  ∧ ((∀ cp ∈ rule_patterns, ∀ pat ∈ cp.2, occursIn text pat = false) →
       extract_healthcare_rules text = [])
  ∧ extract_healthcare_rules "The timely filing rule and the filing deadline apply"
      = [{ type := "timely_filing", pattern_matched := "timely filing",
           rule_text := "The timely filing rule and the filing deadline apply" },
         { type := "timely_filing", pattern_matched := "filing deadline",
           rule_text := "The timely filing rule and the filing deadline apply" }] := by
  have hspec : extract_healthcare_rules text = rules_spec text := by
    unfold extract_healthcare_rules rules_spec
    rw [filter_of_flatMap, map_of_flatMap]
    apply flatMap_congr_mem
    intro cp _
    rw [filter_of_map, List.map_map]
    rfl
  have hlen : (extract_healthcare_rules text).length
      = ((rule_patterns.flatMap (fun cp => cp.2)).filter
          (fun pat => occursIn text pat)).length := by
    unfold extract_healthcare_rules
    rw [filter_of_flatMap]
    exact length_flatMap_congr _ _ _ (fun cp _ => by simp)
  refine ⟨hspec, hlen, ?_, by decide⟩
  intro h
  have hfe : ((rule_patterns.flatMap (fun cp => cp.2)).filter
      (fun pat => occursIn text pat)) = [] := by
    rw [List.filter_eq_nil_iff]
    intro pat hp
    rw [List.mem_flatMap] at hp
    rcases hp with ⟨cp, hcp, hpat⟩
    simp [h cp hcp pat hpat]
  exact List.eq_nil_of_length_eq_zero (by rw [hlen, hfe]; rfl)

/-- Witness for C3: a text containing no trigger phrase yields no rules. -/
theorem c3_rule_mining_witness : extract_healthcare_rules "hello world" = [] :=
  (c3_rule_mining "hello world").2.2.1 (by decide)

/-- Summing a projection over a filtered list equals summing the projection
gated to 0 on the rejected elements. -/
theorem sum_filter_map_eq {α : Type} (p : α → Bool) (f : α → Nat) (l : List α) :
    ((l.filter p).map f).sum = (l.map (fun a => if p a then f a else 0)).sum := by
  induction l with
  | nil => rfl
  | cons a t ih => cases h : p a <;> simp [List.filter_cons, h, ih]

/-- The length of a filtered list is the count of the predicate. -/
theorem length_filter_eq_countP {α : Type} (p : α → Bool) (l : List α) :
    (l.filter p).length = l.countP p := by
  induction l with
  | nil => rfl
  | cons a t ih => cases h : p a <;> simp [List.filter_cons, List.countP_cons, h, ih]

/-- C6: the batch summary's totals are pure reductions over the results list:
total_files is the number of results, successful and failed count the matching
statuses, and total_pages and total_rules sum page and rule counts over only
the successful results, a failed result contributing 0 to both sums. -/
theorem c6_batch_totals (results : List BatchResult) (now : String) :
    (upload_batch_summary results now).total_files = results.length
  ∧ (upload_batch_summary results now).successful
      = results.countP (fun r => r.status == "success")
  ∧ (upload_batch_summary results now).failed
      = results.countP (fun r => r.status == "failed")
  ∧ (upload_batch_summary results now).total_pages
      = (results.map
          (fun r => if r.status == "success" then r.pages.getD 0 else 0)).sum
  ∧ (upload_batch_summary results now).total_rules
      = (results.map
          (fun r => if r.status == "success" then r.rules_extracted.getD 0 else 0)).sum :=
  ⟨rfl, length_filter_eq_countP _ _, length_filter_eq_countP _ _,
   sum_filter_map_eq _ _ _, sum_filter_map_eq _ _ _⟩

/-- Counting over a mapped list counts the composed predicate. -/
theorem countP_map_eq {α β : Type} (p : β → Bool) (f : α → β) (l : List α) :
    (l.map f).countP p = l.countP (fun a => p (f a)) := by
  induction l with
  | nil => rfl
  | cons a t ih => simp [List.countP_cons, ih]

/-- Pointwise-equal predicates count equally. -/
theorem countP_congr_mem {α : Type} (p q : α → Bool) (l : List α)
    (h : ∀ a ∈ l, p a = q a) : l.countP p = l.countP q := by
  induction l with
  | nil => rfl
  | cons a t ih =>
    simp [List.countP_cons, h a (List.mem_cons_self a t),
          ih (fun x hx => h x (List.mem_cons_of_mem a hx))]

/-- Pointwise-equal functions give equal maps. -/
theorem map_congr_mem {α β : Type} (l : List α) (f g : α → β)
    (h : ∀ a ∈ l, f a = g a) : l.map f = l.map g := by
  induction l with
  | nil => rfl
  | cons a t ih =>
    simp [h a (List.mem_cons_self a t),
          ih (fun x hx => h x (List.mem_cons_of_mem a hx))]

/-- C7: every discovered document is attempted and yields exactly one
BatchResult in order; a pipeline failure is caught and recorded as a failed
entry carrying the exception description, processing continues, and the
summary totals over the recorded results count every document by outcome. -/
theorem c7_failure_isolation
    (blobs : List (String × Except String ExtractionDocument)) (now : String)
    (hne : ∀ be ∈ blobs, errDesc be.2 ≠ some "") :
    (process_all_pdfs blobs now).length = blobs.length
  ∧ (process_all_pdfs blobs now).map (fun r => r.blob_name)
      = blobs.map (fun be => be.1)
  ∧ (upload_batch_summary (process_all_pdfs blobs now) now).total_files
      = blobs.length
  ∧ (upload_batch_summary (process_all_pdfs blobs now) now).successful
      = blobs.countP (fun be => isOkOutcome be.2)
  ∧ (upload_batch_summary (process_all_pdfs blobs now) now).failed
      = blobs.countP (fun be => !(isOkOutcome be.2))
  ∧ (∀ be ∈ blobs, ∀ e, be.2 = Except.error e →
       process_one now be ∈ process_all_pdfs blobs now
     ∧ (process_one now be).status = "failed"
     ∧ (process_one now be).error = some e)
  ∧ (∀ r ∈ process_all_pdfs blobs now, r.status = "failed" →
       ∃ e, r.error = some e ∧ e ≠ "") := by
  have hsucc : ∀ be : String × Except String ExtractionDocument,
      ((process_one now be).status == "success") = isOkOutcome be.2 := by
    intro be
    cases h : be.2 <;> simp [process_one, isOkOutcome, h]
  have hfail : ∀ be : String × Except String ExtractionDocument,
      ((process_one now be).status == "failed") = !(isOkOutcome be.2) := by
    intro be
    cases h : be.2 <;> simp [process_one, isOkOutcome, h]
  refine ⟨by simp [process_all_pdfs], ?_, by simp [upload_batch_summary, process_all_pdfs],
          ?_, ?_, ?_, ?_⟩
  · unfold process_all_pdfs
    rw [List.map_map]
    exact map_congr_mem _ _ _ (fun be _ => by cases h : be.2 <;> simp [process_one, h])
  · show ((process_all_pdfs blobs now).filter (fun r => r.status == "success")).length = _
    rw [length_filter_eq_countP]
    unfold process_all_pdfs
    rw [countP_map_eq]
    exact countP_congr_mem _ _ _ (fun be _ => hsucc be)
  · show ((process_all_pdfs blobs now).filter (fun r => r.status == "failed")).length = _
    rw [length_filter_eq_countP]
    unfold process_all_pdfs
    rw [countP_map_eq]
    exact countP_congr_mem _ _ _ (fun be _ => hfail be)
  · intro be hbe e he
    refine ⟨List.mem_map_of_mem _ hbe, ?_, ?_⟩ <;> simp [process_one, he]
  · intro r hr hst
    rcases List.mem_map.mp hr with ⟨be, hbe, hre⟩
    cases h2 : be.2 with
    | ok doc =>
      rw [← hre] at hst
      simp [process_one, h2] at hst
    | error e =>
      refine ⟨e, ?_, fun heq => hne be hbe (by rw [h2]; simp [errDesc, heq])⟩
      rw [← hre]
      simp [process_one, h2]

/-- Witness for C7: the concrete three-document batch with a failing second
document reports three files, two successes and one failure, and its failed
entry carries a non-empty error description. -/
theorem c7_failure_isolation_witness :
    (upload_batch_summary (process_all_pdfs demoBlobs "t") "t").total_files = 3
  ∧ (upload_batch_summary (process_all_pdfs demoBlobs "t") "t").successful = 2
  ∧ (upload_batch_summary (process_all_pdfs demoBlobs "t") "t").failed = 1
  ∧ (∀ r ∈ process_all_pdfs demoBlobs "t", r.status = "failed" →
       ∃ e, r.error = some e ∧ e ≠ "") := by
  have h := c7_failure_isolation demoBlobs "t" (by decide)
  exact ⟨h.2.2.1.trans (by decide), h.2.2.2.1.trans (by decide),
         h.2.2.2.2.1.trans (by decide), h.2.2.2.2.2.2⟩

/-- C8: the adapter (a total function here, so it cannot raise) degrades
absent optional data exactly as the source's defensive accesses do: absent
pages, paragraphs or tables become empty sequences; absent line confidence,
line bounding box, paragraph role, paragraph page reference and cell kind
become explicit absent markers; absent cell spans default to 1. -/
theorem c8_adapter_absent_tolerance (result : RawLayoutResult) (blob now : String)
    (line : RawLine) (para : RawParagraph) (cell : RawCell) :
    (result.pages = none → (convert_to_healthcare_json result blob now).pages = [])
  ∧ (result.paragraphs = none →
       (convert_to_healthcare_json result blob now).paragraphs = [])
  ∧ (result.tables = none → (convert_to_healthcare_json result blob now).tables = [])
  ∧ (line.confidence = none → (adaptLine line).confidence = none)
  ∧ (line.polygon = none → (adaptLine line).bounding_box = none)
  ∧ (para.role = none → (adaptParagraph para).role = none)
  ∧ (para.bounding_regions = none → (adaptParagraph para).page_number = none)
  ∧ (cell.kind = none → (adaptCell cell).kind = none)
  ∧ (cell.row_span = none → (adaptCell cell).row_span = 1)
  ∧ (cell.column_span = none → (adaptCell cell).column_span = 1) := by
  refine ⟨?_, ?_, ?_, ?_, ?_, ?_, ?_, ?_, ?_, ?_⟩ <;> intro h <;>
    simp [convert_to_healthcare_json, adaptLine, adaptParagraph, adaptCell,
          optListElems, h]

/-- Witness for C8: the all-absent raw result and all-absent line, paragraph
and cell instantiate every defensive default at once. -/
theorem c8_adapter_absent_tolerance_witness :
    (convert_to_healthcare_json rawEmpty "b.pdf" "t").pages = []
  ∧ (convert_to_healthcare_json rawEmpty "b.pdf" "t").paragraphs = []
  ∧ (convert_to_healthcare_json rawEmpty "b.pdf" "t").tables = []
  ∧ (adaptLine lineAbsent).confidence = none
  ∧ (adaptLine lineAbsent).bounding_box = none
  ∧ (adaptParagraph paraAbsent).role = none
  ∧ (adaptParagraph paraAbsent).page_number = none
  ∧ (adaptCell cellAbsent).kind = none
  ∧ (adaptCell cellAbsent).row_span = 1
  ∧ (adaptCell cellAbsent).column_span = 1 := by
  have h := c8_adapter_absent_tolerance rawEmpty "b.pdf" "t" lineAbsent paraAbsent
    cellAbsent
  exact ⟨h.1 rfl, h.2.1 rfl, h.2.2.1 rfl, h.2.2.2.1 rfl, h.2.2.2.2.1 rfl,
         h.2.2.2.2.2.1 rfl, h.2.2.2.2.2.2.1 rfl, h.2.2.2.2.2.2.2.1 rfl,
         h.2.2.2.2.2.2.2.2.1 rfl, h.2.2.2.2.2.2.2.2.2 rfl⟩
